import Mathlib

/-!
Verification development for the Ontario Public Library portal
(`opl_system_portal.py`).  The pandas/numpy data model is shallowly
embedded: a DataFrame row becomes a `Row` record, float-valued cells
(which may be missing, i.e. NaN, or infinite after a division by zero)
become `PFloat`, and each query of the portal becomes a Lean function
translated from the corresponding Python source.  String operations
(`str.title`, `str.upper`, `str.lower`) are modelled for ASCII data,
which is the scope of the identifiers and postal codes involved.
-/

/-- IEEE-754-style float values as produced by numpy/pandas arithmetic on
this dataset: a rational payload, positive/negative infinity, or NaN
(which also encodes a missing cell, as in pandas). -/
inductive PFloat where
  | nan : PFloat
  | inf : PFloat
  | ninf : PFloat
  | num : ℚ → PFloat
deriving DecidableEq, Repr

/-- Addition on `PFloat`, following IEEE-754 as numpy implements it:
NaN is absorbing, `inf + ninf = nan`. -/
def padd : PFloat → PFloat → PFloat
  | .nan, _ => .nan
  | _, .nan => .nan
  | .inf, .ninf => .nan
  | .ninf, .inf => .nan
  | .inf, _ => .inf
  | _, .inf => .inf
  | .ninf, _ => .ninf
  | _, .ninf => .ninf
  | .num a, .num b => .num (a + b)

/-- Division on `PFloat`, following IEEE-754 as numpy implements it:
NaN is absorbing, `x / 0` is `inf` for `x > 0`, `ninf` for `x < 0` and
`nan` for `x = 0`; a finite value divided by an infinity is `0`. -/
def pdiv : PFloat → PFloat → PFloat
  | .nan, _ => .nan
  | _, .nan => .nan
  | .inf, .inf => .nan
  | .inf, .ninf => .nan
  | .ninf, .inf => .nan
  | .ninf, .ninf => .nan
  | .inf, .num b => if 0 ≤ b then .inf else .ninf
  | .ninf, .num b => if 0 ≤ b then .ninf else .inf
  | .num _, .inf => .num 0
  | .num _, .ninf => .num 0
  | .num a, .num b =>
    if b = 0 then (if a = 0 then .nan else if 0 < a then .inf else .ninf)
    else .num (a / b)

/-- The effect of `Series.replace(np.nan, 0)`: NaN becomes `0`, every
other value (infinities included) is left unchanged. -/
def replaceNanZero (x : PFloat) : PFloat :=
  if x = .nan then .num 0 else x

/-- Value comparison used by sorting and max, on non-NaN values:
`ninf < num _ < inf` with the rational order in between.  (Positions of
NaN are handled separately by the callers, as pandas does.) -/
def pleB : PFloat → PFloat → Bool
  | .nan, _ => true
  | _, .nan => false
  | _, .inf => true
  | .inf, _ => false
  | .ninf, _ => true
  | _, .ninf => false
  | .num a, .num b => a ≤ b

/-- Equality comparison as numpy `==` behaves on floats: NaN compares
unequal to everything (itself included). -/
def peqB : PFloat → PFloat → Bool
  | .nan, _ => false
  | _, .nan => false
  | .inf, .inf => true
  | .inf, _ => false
  | _, .inf => false
  | .ninf, .ninf => true
  | .ninf, _ => false
  | _, .ninf => false
  | .num a, .num b => a = b

/-- Binary max on non-NaN values. -/
def pmaxNN (a b : PFloat) : PFloat := if pleB a b then b else a

/-- `Series.max()` with pandas defaults: NaN entries are skipped, and the
result is NaN when no non-NaN entry exists. -/
def seriesMax (l : List PFloat) : PFloat :=
  match l.filter (fun x => !(x == PFloat.nan)) with
  | [] => .nan
  | v :: vs => vs.foldl pmaxNN v

/-- `Series.mean()` with pandas defaults: NaN entries are skipped, and
the result is NaN when no non-NaN entry exists. -/
def pmean (l : List PFloat) : PFloat :=
  let vs := l.filter (fun x => !(x == PFloat.nan))
  if vs.length = 0 then .nan
  else pdiv (vs.foldl padd (.num 0)) (.num (vs.length : ℚ))

/-- Comparator of `sort_values(col, ascending=False)`: descending by
value, NaN placed last. -/
def sortLeDesc (a b : PFloat) : Bool :=
  if b = .nan then true else if a = .nan then false else pleB b a

/-- Comparator of `sort_values(col)` (ascending): ascending by value,
NaN placed last. -/
def sortLeAsc (a b : PFloat) : Bool :=
  if b = .nan then true else if a = .nan then false else pleB a b

/-- Comparison on `UInt32` coincides with comparison of the underlying
naturals. -/
theorem u32_le_iff (a b : UInt32) : a ≤ b ↔ a.toNat ≤ b.toNat := by
  rw [UInt32.le_def]
  rw [BitVec.le_def]
  exact Iff.rfl

/-- `Char.ofNat` inverts `Char.toNat` on codepoints below the surrogate
range. -/
theorem charToNat_ofNat (n : ℕ) (h : n < 55296) : (Char.ofNat n).toNat = n := by
  unfold Char.ofNat
  rw [dif_pos (Or.inl h)]
  exact rfl

/-- `Char.toNat` is injective. -/
theorem char_toNat_inj {c d : Char} (h : c.toNat = d.toNat) : c = d := by
  have hc := Char.ofNat_toNat c
  have hd := Char.ofNat_toNat d
  rw [h] at hc
  rw [← hc]
  exact hd

/-- Codepoint arithmetic of `Char.toLower` (ASCII: `A`-`Z` shift by 32). -/
theorem toLower_toNat (c : Char) :
    (Char.toLower c).toNat = if 65 ≤ c.toNat ∧ c.toNat ≤ 90 then c.toNat + 32 else c.toNat := by
  unfold Char.toLower
  by_cases h : 65 ≤ c.toNat ∧ c.toNat ≤ 90
  · rw [if_pos ⟨h.1, h.2⟩, if_pos h]
    exact charToNat_ofNat _ (by omega)
  · rw [if_neg (fun hh => h ⟨hh.1, hh.2⟩), if_neg h]

/-- Codepoint arithmetic of `Char.toUpper` (ASCII: `a`-`z` shift by 32). -/
theorem toUpper_toNat (c : Char) :
    (Char.toUpper c).toNat = if 97 ≤ c.toNat ∧ c.toNat ≤ 122 then c.toNat - 32 else c.toNat := by
  unfold Char.toUpper
  by_cases h : 97 ≤ c.toNat ∧ c.toNat ≤ 122
  · rw [if_pos ⟨h.1, h.2⟩, if_pos h]
    exact charToNat_ofNat _ (by omega)
  · rw [if_neg (fun hh => h ⟨hh.1, hh.2⟩), if_neg h]

/-- `Char.isAlpha` holds exactly on the two ASCII letter ranges. -/
theorem isAlpha_iff_toNat (c : Char) :
    Char.isAlpha c = true ↔ (65 ≤ c.toNat ∧ c.toNat ≤ 90) ∨ (97 ≤ c.toNat ∧ c.toNat ≤ 122) := by
  simp only [Char.isAlpha, Char.isUpper, Char.isLower, Bool.or_eq_true, Bool.and_eq_true,
    decide_eq_true_eq, u32_le_iff]
  exact Iff.rfl

/-- Two characters with the same lower-casing agree on casedness, on
upper-casing, and are equal outright when not alphabetic. -/
theorem char_case_master {a b : Char} (h : Char.toLower a = Char.toLower b) :
    Char.isAlpha a = Char.isAlpha b ∧ Char.toUpper a = Char.toUpper b ∧
      (Char.isAlpha a = false → a = b) := by
  have hn : (Char.toLower a).toNat = (Char.toLower b).toNat := by rw [h]
  rw [toLower_toNat, toLower_toNat] at hn
  have hab : a.toNat = b.toNat ∨
      (65 ≤ a.toNat ∧ a.toNat ≤ 90 ∧ b.toNat = a.toNat + 32) ∨
      (65 ≤ b.toNat ∧ b.toNat ≤ 90 ∧ a.toNat = b.toNat + 32) := by
    by_cases h1 : 65 ≤ a.toNat ∧ a.toNat ≤ 90 <;> by_cases h2 : 65 ≤ b.toNat ∧ b.toNat ≤ 90 <;>
      simp [h1, h2] at hn <;> omega
  rcases hab with hab | hab | hab
  · have : a = b := char_toNat_inj hab
    subst this
    exact ⟨rfl, rfl, fun _ => rfl⟩
  · have ha : Char.isAlpha a = true := (isAlpha_iff_toNat a).mpr (Or.inl ⟨hab.1, hab.2.1⟩)
    have hb : Char.isAlpha b = true := (isAlpha_iff_toNat b).mpr (Or.inr (by omega))
    refine ⟨by rw [ha, hb], ?_, by rw [ha]; intro hc; cases hc⟩
    apply char_toNat_inj
    rw [toUpper_toNat, toUpper_toNat]
    rw [if_neg (by omega), if_pos (by omega)]
    omega
  · have hb : Char.isAlpha b = true := (isAlpha_iff_toNat b).mpr (Or.inl ⟨hab.1, hab.2.1⟩)
    have ha : Char.isAlpha a = true := (isAlpha_iff_toNat a).mpr (Or.inr (by omega))
    refine ⟨by rw [ha, hb], ?_, by rw [ha]; intro hc; cases hc⟩
    apply char_toNat_inj
    rw [toUpper_toNat, toUpper_toNat]
    rw [if_pos (by omega), if_neg (by omega)]
    omega

/-- Auxiliary recursion of Python `str.title()`: the Boolean flag records
whether the previous character was cased (for ASCII: alphabetic).  A
cased character is upper-cased when it starts a word and lower-cased
otherwise. -/
def titleAux : Bool → List Char → List Char
  | _, [] => []
  | prevCased, c :: cs =>
    if Char.isAlpha c then
      (if prevCased then Char.toLower c else Char.toUpper c) :: titleAux true cs
    else
      c :: titleAux false cs

/-- Python `str.title()` (ASCII scope), as applied by the portal to every
identifier typed into the branch search. -/
def pythonTitle (s : String) : String := ⟨titleAux false s.data⟩

/-- Python `str.lower()` (ASCII scope), used here to express "equal up
to letter case". -/
def pythonLower (s : String) : String := ⟨s.data.map Char.toLower⟩

/-- `titleAux` only depends on the lower-casing of its input. -/
theorem titleAux_congr : ∀ (p : Bool) (l1 l2 : List Char),
    l1.map Char.toLower = l2.map Char.toLower → titleAux p l1 = titleAux p l2
  | _, [], [], _ => rfl
  | p, a :: l1, b :: l2, h => by
    simp only [List.map_cons, List.cons.injEq] at h
    obtain ⟨hmaster1, hmaster2, hmaster3⟩ := char_case_master h.1
    have ih := titleAux_congr true l1 l2 h.2
    have ihf := titleAux_congr false l1 l2 h.2
    simp only [titleAux]
    by_cases halpha : Char.isAlpha a = true
    · have hb' : Char.isAlpha b = true := by
        rw [← hmaster1]
        exact halpha
      rw [if_pos halpha, if_pos hb', h.1, hmaster2, ih]
    · have hb' : ¬ Char.isAlpha b = true := by
        rw [← hmaster1]
        exact halpha
      have haf : Char.isAlpha a = false := by
        revert halpha
        cases Char.isAlpha a <;> simp
      rw [if_neg halpha, if_neg hb', hmaster3 haf, ihf]

/-- `pythonTitle` only depends on the lower-casing of its input: two
identifiers equal up to case have the same title-casing. -/
theorem pythonTitle_congr {s t : String} (h : pythonLower s = pythonLower t) :
    pythonTitle s = pythonTitle t := by
  unfold pythonTitle
  unfold pythonLower at h
  have hdata : s.data.map Char.toLower = t.data.map Char.toLower :=
    congrArg String.data h
  rw [titleAux_congr false s.data t.data hdata]

/-- One row of the merged library table, before the derived columns are
added: the three key columns of the hierarchical index, the descriptive
string columns used by the portal (nullable ones as `Option`), and the
numeric columns (missing numeric cells are `PFloat.nan`, as in pandas). -/
structure Row where
  libraryFullName : String
  libraryNumber : String
  year : Int
  serviceRegion : String
  serviceType : String
  streetAddress : Option String
  mailingAddress : Option String
  cityTown : Option String
  postalCode : Option String
  webSiteAddress : Option String
  totalPrintTitles : PFloat
  totalEbookTitles : PFloat
  cardholders : PFloat
deriving DecidableEq, Repr

/-- A row after `add_columns`: the raw row plus the two derived columns
`Total Resources` and `Resources per Cardholder`. -/
structure DRow where
  base : Row
  totalResources : PFloat
  resourcesPerCardholder : PFloat
deriving DecidableEq, Repr

/-- The two derived columns of `add_columns`, per row:
`Total Resources = Total Print Titles Held + Total E-book and E-audio Titles`,
`Resources per Cardholder = Total Resources / No. Cardholders`, followed by
`replace(np.nan, 0)` on the latter column only. -/
def add_columns_row (r : Row) : DRow :=
  let tot := padd r.totalPrintTitles r.totalEbookTitles
  { base := r
    totalResources := tot
    resourcesPerCardholder := replaceNanZero (pdiv tot r.cardholders) }

/-- `add_columns` applied to the whole merged table. -/
def add_columns (t : List Row) : List DRow := t.map add_columns_row

/-- Forward fill along a list of cells, as
`fillna(method='ffill', axis=1)` does within one row: each missing cell
takes the value of the nearest non-missing cell to its left, the
accumulator holding that value (initially nothing). -/
def ffillAcross : Option String → List (Option String) → List (Option String)
  | _, [] => []
  | _, some x :: xs => some x :: ffillAcross (some x) xs
  | last, none :: xs => last :: ffillAcross last xs

/-- The address-reconciliation step of `import_data`, per row: forward
fill across the column pair `['Mailing Address', 'Street Address']`, in
that order. -/
def reconcile_addresses (r : Row) : Row :=
  match ffillAcross none [r.mailingAddress, r.streetAddress] with
  | [m, s] => { r with mailingAddress := m, streetAddress := s }
  | _ => r

/-- The address-reconciliation step of `import_data` over the merged
table (the merge itself only concatenates the yearly files, which the
claims take as given). -/
def import_data_fill (t : List Row) : List Row := t.map reconcile_addresses

/-- The lookup at the heart of `branch_search`: the typed identifier is
title-cased (Python `.title()`), then matched against the
`Library Full Name` index level and, failing that, against the
`Library Number` level; a hit slices all rows of the matching branch (in
table order), no hit re-prompts (modelled as `none`). -/
def branch_search_lookup (table : List DRow) (ident : String) : Option (List DRow) :=
  let lid := pythonTitle ident
  if table.any (fun r => r.base.libraryFullName == lid) then
    some (table.filter (fun r => r.base.libraryFullName == lid))
  else if table.any (fun r => r.base.libraryNumber == lid) then
    some (table.filter (fun r => r.base.libraryNumber == lid))
  else none

/-- `print_branch_info` displays `branch_df.iloc[-1]`, the last row of
the history. -/
def latestRecord (history : List DRow) : Option DRow := history.getLast?

/-- Character class `[a-zA-Z]` of the postal-code regex. -/
def isLetterAZ (c : Char) : Bool := ('a' ≤ c && c ≤ 'z') || ('A' ≤ c && c ≤ 'Z')

/-- Character class `[0-9]` of the postal-code regex. -/
def isDigit09 (c : Char) : Bool := '0' ≤ c && c ≤ '9'

/-- `re.match` of the pattern `([a-zA-Z][0-9]){n}` against the head of a
character list: n letter-digit pairs must be consumed. -/
def matchLD : Nat → List Char → Bool
  | 0, _ => true
  | n + 1, c1 :: c2 :: rest => isLetterAZ c1 && isDigit09 c2 && matchLD n rest
  | _ + 1, [] => false
  | _ + 1, [_] => false

/-- The postal-code validation of `library_locator`:
`len(postal_code) == 6 and re.match(r'([a-zA-Z][0-9]){3}', postal_code)`. -/
def validPostal (s : String) : Bool := s.length == 6 && matchLD 3 s.data

/-- Python `str.upper()` (ASCII scope), the normalization applied to an
accepted postal code. -/
def pythonUpper (s : String) : String := ⟨s.data.map Char.toUpper⟩

/-- The input loop of `library_locator`'s postal prompt over a stream of
typed lines: invalid lines are re-prompted (skipped), the first valid
line is accepted and upper-cased; `none` means the stream ran out. -/
def promptPostal : List String → Option String
  | [] => none
  | s :: rest => if validPostal s then some (pythonUpper s) else promptPostal rest

/-- A regex match of a pattern of literal characters anchored at the
start of a string, as `Series.str.match('^' + prefix)` performs when the
prefix holds only letters and digits (no metacharacters). -/
def regexLitMatch : List Char → List Char → Bool
  | [], _ => true
  | _ :: _, [] => false
  | p :: ps, c :: cs => p == c && regexLitMatch ps cs

/-- One cell of the mask `Series.str.match('^' + prefix)` builds over
the `Postal Code` column: `True`/`False` for a present postal code, NaN
(here `none`) for a missing one, as pandas fills missing values with NaN
by default. -/
def locator_mask_cell (pfx : String) (r : DRow) : Option Bool :=
  r.base.postalCode.map (fun pc => regexLitMatch pfx.data pc.data)

/-- The row filter of `library_locator`: the rows of the snapshot year
2019, boolean-masked by `str.match('^' + postal_code[:3])` over that
slice's `Postal Code` column.  When the mask holds a NaN cell — i.e.
some 2019 row's postal code is missing — pandas raises a ValueError
(masking with a non-boolean array containing NaN), uncaught at the call
site; that crash is modelled as `none`.  Otherwise the result is the
mask-filtered slice. -/
def locator_filter (table : List DRow) (pfx : String) : Option (List DRow) :=
  let rows2019 := table.filter (fun r => r.base.year == 2019)
  if rows2019.all (fun r => (locator_mask_cell pfx r).isSome) then
    some (rows2019.filter (fun r => (locator_mask_cell pfx r).getD false))
  else none

/-- `library_locator` up to the preference sort: validate the postal
code, upper-case it, and filter by its first three characters.  `none`
covers both the invalid-postal re-prompt and the uncaught ValueError of
a NaN-holding mask; `some rows` means the locator ran to completion and
produced the filtered rows (possibly empty — an empty match is not an
error). -/
def library_locator (table : List DRow) (postal : String) : Option (List DRow) :=
  if validPostal postal then
    locator_filter table ((pythonUpper postal).take 3)
  else none

/-- Sort relation of preference 1 (Borrow Library Resources):
`sort_values('Resources per Cardholder', ascending=False)`. -/
def borrowRel (a b : DRow) : Prop :=
  sortLeDesc a.resourcesPerCardholder b.resourcesPerCardholder = true

/-- Sort relation of preference 2 (Work or Study Spaces):
`sort_values('No. Cardholders')`. -/
def studyRel (a b : DRow) : Prop :=
  sortLeAsc a.base.cardholders b.base.cardholders = true

instance : DecidableRel borrowRel := fun a b => by
  unfold borrowRel
  infer_instance

instance : DecidableRel studyRel := fun a b => by
  unfold studyRel
  infer_instance

/-- The Borrow-Resources ordering of the filtered locator rows. -/
def sort_by_borrow (t : List DRow) : List DRow := List.insertionSort borrowRel t

/-- The Study-Space ordering of the filtered locator rows. -/
def sort_by_study (t : List DRow) : List DRow := List.insertionSort studyRel t

/-- The rows of one year, as sliced by `loc[pd.IndexSlice[:, :, year], :]`. -/
def year_rows (table : List DRow) (y : Int) : List DRow :=
  table.filter (fun r => r.base.year == y)

/-- The per-column maximum of `access_archives`' record loop:
`self.__data.loc[pd.IndexSlice[:, :, year], col].max()` — the maximum of
the column over the rows of the requested year. -/
def year_col_max (table : List DRow) (y : Int) (f : DRow → PFloat) : PFloat :=
  seriesMax ((year_rows table y).map f)

/-- The record-holder lookup of `access_archives`:
`self.__data[self.__data[col] == max_value].index[0]` — the first row of
the WHOLE table (all years) whose column value compares equal to the
year's maximum; an empty mask raises IndexError, modelled as `none`. -/
def record_holder_row (table : List DRow) (y : Int) (f : DRow → PFloat) : Option DRow :=
  table.find? (fun r => peqB (f r) (year_col_max table y f))

/-- One line of the `LIBRARY RECORDS` report: the year's maximum value
of the column paired with the `Library Full Name` of the record-holder
row. -/
def library_records (table : List DRow) (y : Int) (f : DRow → PFloat) :
    Option (PFloat × String) :=
  (record_holder_row table y f).map (fun r => (year_col_max table y f, r.base.libraryFullName))

/-- One cell of
`pivot_table('Resources per Cardholder', index='Service Type', columns='Ontario Library Service Region')`:
the mean of `Resources per Cardholder` over every row of the table with
the given service type and region (NaN when no such row exists). -/
def pivot_cell (table : List DRow) (stype sregion : String) : PFloat :=
  pmean ((table.filter (fun r =>
    r.base.serviceType == stype && r.base.serviceRegion == sregion)).map
      (·.resourcesPerCardholder))

/-- The pivot cell as `access_archives` computes it for a requested
year: the source builds the pivot from `self.__data`, the whole table,
so the year is not used. -/
def archive_pivot_cell (table : List DRow) (_year : Int) (stype sregion : String) : PFloat :=
  pivot_cell table stype sregion

/-- The rendering of a pivot cell after the two `replace` calls:
a cell equal to `0` becomes the annotated string `0.0*`, a NaN cell
becomes the annotated string `N/A**`, anything else is printed as the
number itself. -/
inductive CellOut where
  | zeroAnn : CellOut
  | naAnn : CellOut
  | val : PFloat → CellOut
deriving DecidableEq, Repr

/-- `replace(0, "0.0*")` then `replace(np.nan, "N/A**")` on one cell. -/
def display_pivot_cell (x : PFloat) : CellOut :=
  if x = .num 0 then .zeroAnn else if x = .nan then .naAnn else .val x

/-- The branch names printed by `print_nearby_branches`: the enumeration
stops after the fifth row. -/
def printed_names (locs : List DRow) : List String :=
  (locs.take 5).map (fun r => r.base.libraryFullName)

/-- The selection validation of `print_nearby_branches`:
`branch_selection in range(1, 6)`, independent of how many rows exist. -/
def selection_valid (s : Int) : Bool := 1 ≤ s && s < 6

/-- The indexing step of `print_nearby_branches`:
`sorted_locations.index.get_level_values('Library Full Name')[branch_selection - 1]`;
an out-of-bounds position raises an uncaught IndexError, modelled as
`none`. -/
def select_branch_name (locs : List DRow) (s : Nat) : Option String :=
  (locs.get? (s - 1)).map (fun r => r.base.libraryFullName)

/-- Fixture builder: a raw row with the given key, type/region, postal
code and numeric cells; the remaining nullable columns empty. -/
def mkRow (name num : String) (y : Int) (stype sregion : String) (pc : Option String)
    (tp te ch : PFloat) : Row :=
  { libraryFullName := name
    libraryNumber := num
    year := y
    serviceRegion := sregion
    serviceType := stype
    streetAddress := none
    mailingAddress := none
    cityTown := none
    postalCode := pc
    webSiteAddress := none
    totalPrintTitles := tp
    totalEbookTitles := te
    cardholders := ch }

/-- Fixture for C1: a 2019 record with 10 print titles, 5 e-resource
titles (so a positive total of 15) and a cardholder count of 0, as in
the spec's own scenario of a branch reporting 0 cardholders. -/
def exRowC1 : Row :=
  mkRow "Example Library" "L0001" 2019 "Public" "South" none
    (.num 10) (.num 5) (.num 0)

/-- Claim C1: the derived resources-per-cardholder is claimed to be
exactly 0 (never NaN and never infinite) whenever the cardholder count
is 0.  The code divides first and only replaces NaN afterwards, so a
record with a positive resource total and a cardholder count of 0 gets
`15 / 0 = inf`, which `replace(np.nan, 0)` does not touch: the derived
value is infinite, not 0. -/
theorem C1_code_bug_eval :
    (add_columns [exRowC1]).map (·.resourcesPerCardholder) = [PFloat.inf] ∧
      (PFloat.inf ≠ PFloat.num 0 ∧ PFloat.inf ≠ PFloat.nan) := by
  refine ⟨?_, by decide, by decide⟩
  simp [add_columns, add_columns_row, exRowC1, mkRow, padd, pdiv, replaceNanZero]
  norm_num
  intro h
  cases h

/-- Fixture for C4: a merged row whose mailing address is missing while
its street address is present. -/
def exRowC4 : Row :=
  { mkRow "Delta Library" "L0002" 2018 "Public" "North" none
      (.num 1) (.num 1) (.num 1) with
    streetAddress := some "123 Main St"
    mailingAddress := none }

/-- Claim C4 counterexample: the claim says a missing fallback (mailing)
address is taken from the primary (street) address, but the forward fill
runs left-to-right over `['Mailing Address', 'Street Address']`, so a
missing mailing address stays missing even when the street address is
present. -/
theorem C4_counterexample :
    exRowC4.streetAddress = some "123 Main St" ∧
      exRowC4.mailingAddress = none ∧
      (reconcile_addresses exRowC4).mailingAddress = none ∧
      (reconcile_addresses exRowC4).mailingAddress ≠ exRowC4.streetAddress := by
  refine ⟨rfl, rfl, rfl, ?_⟩
  intro h
  cases h

/-- Claim C4 (amended): the fill is applied independently per row (never
across rows), a missing street address is taken from the mailing
address, a present street address is kept, and the mailing address is
never changed — the fill is one-directional, street-from-mailing only. -/
theorem C4_amended (t : List Row) (r : Row) (i : Nat) :
    (import_data_fill t).get? i = (t.get? i).map reconcile_addresses ∧
      (r.streetAddress = none → (reconcile_addresses r).streetAddress = r.mailingAddress) ∧
      (∀ s, r.streetAddress = some s → (reconcile_addresses r).streetAddress = some s) ∧
      (reconcile_addresses r).mailingAddress = r.mailingAddress := by
  refine ⟨?_, ?_, ?_, ?_⟩
  · simp [import_data_fill, List.get?_eq_getElem?, List.getElem?_map]
  · intro hs
    cases hm : r.mailingAddress <;>
      simp [reconcile_addresses, ffillAcross, hs, hm]
  · intro s hs
    cases hm : r.mailingAddress <;>
      simp [reconcile_addresses, ffillAcross, hs, hm]
  · cases hm : r.mailingAddress <;> cases hs : r.streetAddress <;>
      simp [reconcile_addresses, ffillAcross, hs, hm]

/-- Witness for C4 (amended) at the concrete fixture row: a row with
street address missing gets it filled from the mailing address. -/
theorem C4_amended_witness :
    (reconcile_addresses (mkRow "Echo Library" "L0003" 2017 "Public" "East"
        none (.num 1) (.num 1) (.num 1))).streetAddress =
      (mkRow "Echo Library" "L0003" 2017 "Public" "East"
        none (.num 1) (.num 1) (.num 1)).mailingAddress :=
  (C4_amended [] (mkRow "Echo Library" "L0003" 2017 "Public" "East"
    none (.num 1) (.num 1) (.num 1)) 0).2.1 rfl

/-- Fixture for C10: a single nearby branch. -/
def exRowC10 : DRow :=
  add_columns_row (mkRow "Solo Branch" "L0009" 2019 "Public" "West"
    (some "K1A0A1") (.num 1) (.num 1) (.num 1))

/-- Claim C10: the selection loop accepts every integer from 1 to 5 even
when fewer results exist, and the claim asserts the subsequent index
access is then still within bounds.  With a single result, selection 5
is accepted by the validation but indexes position 4 of a length-1
sequence: out of bounds (an uncaught IndexError in the source, since the
handler catches only ValueError). -/
theorem C10_code_bug_eval :
    selection_valid 5 = true ∧
      printed_names [exRowC10] = ["Solo Branch"] ∧
      select_branch_name [exRowC10] 5 = none ∧
      select_branch_name [exRowC10] 1 = some "Solo Branch" := by
  exact ⟨rfl, rfl, rfl, rfl⟩

/-- `List.find?` returns the first hit: the list splits into a prefix of
misses, the hit, and a remainder. -/
theorem find?_first {α : Type} (p : α → Bool) :
    ∀ (l : List α) (a : α), l.find? p = some a →
      p a = true ∧ ∃ l1 l2, l = l1 ++ a :: l2 ∧ ∀ x ∈ l1, p x = false
  | [], a, h => by cases h
  | x :: xs, a, h => by
    by_cases hx : p x = true
    · rw [List.find?_cons_of_pos _ hx] at h
      obtain rfl : x = a := by cases h; rfl
      exact ⟨hx, [], xs, rfl, by intro y hy; cases hy⟩
    · have hxf : p x = false := by
        revert hx
        cases p x <;> simp
      rw [List.find?_cons_of_neg _ (by rw [hxf]; exact Bool.false_ne_true)] at h
      obtain ⟨hpa, l1, l2, heq, hmiss⟩ := find?_first p xs a h
      refine ⟨hpa, x :: l1, l2, by rw [heq]; rfl, ?_⟩
      intro y hy
      rcases List.mem_cons.mp hy with rfl | hy'
      · exact hxf
      · exact hmiss y hy'

/-- Fixture rows for C2: branch Alpha has cardholder counts 30 (2017)
and 100 (2019); branch Beta has 100 (2017) and 50 (2019).  The table is
in sorted key order. -/
def rowAlpha2017 : DRow :=
  add_columns_row (mkRow "Alpha" "L0001" 2017 "Public" "South" none (.num 1) (.num 1) (.num 30))

/-- Fixture row, see `rowAlpha2017`. -/
def rowAlpha2019 : DRow :=
  add_columns_row (mkRow "Alpha" "L0001" 2019 "Public" "South" none (.num 1) (.num 1) (.num 100))

/-- Fixture row, see `rowAlpha2017`. -/
def rowBeta2017 : DRow :=
  add_columns_row (mkRow "Beta" "L0002" 2017 "Public" "South" none (.num 1) (.num 1) (.num 100))

/-- Fixture row, see `rowAlpha2017`. -/
def rowBeta2019 : DRow :=
  add_columns_row (mkRow "Beta" "L0002" 2019 "Public" "South" none (.num 1) (.num 1) (.num 50))

/-- Fixture table for C2. -/
def exTableC2 : List DRow := [rowAlpha2017, rowAlpha2019, rowBeta2017, rowBeta2019]

/-- The `No. Cardholders` column as accessed by the record loop. -/
def colCardholders (r : DRow) : PFloat := r.base.cardholders

/-- Claim C2 counterexample: for year 2017 the cardholder maximum is 100,
achieved only by Beta in 2017; but the record lookup masks the WHOLE
table, where Alpha's 2019 row also holds 100, and Alpha sorts first — so
the report names Alpha, a branch that does not achieve the maximum in
2017 (its 2017 value is 30). -/
theorem C2_counterexample :
    library_records exTableC2 2017 colCardholders = some (PFloat.num 100, "Alpha") ∧
      (exTableC2.all (fun r =>
        !(r.base.libraryFullName == "Alpha" && r.base.year == 2017 &&
          peqB (colCardholders r) (year_col_max exTableC2 2017 colCardholders)))) = true := by
  constructor
  · simp [library_records, record_holder_row, exTableC2, year_col_max, year_rows, seriesMax,
      rowAlpha2017, rowAlpha2019, rowBeta2017, rowBeta2019, add_columns_row, mkRow,
      colCardholders, pmaxNN, pleB, peqB, List.find?]
    norm_num
  · simp [exTableC2, year_col_max, year_rows, seriesMax,
      rowAlpha2017, rowAlpha2019, rowBeta2017, rowBeta2019, add_columns_row, mkRow,
      colCardholders, pmaxNN, pleB, peqB]
    norm_num

/-- Claim C2 (amended): for every table, year and numeric column, when
the record line is produced it pairs the column's maximum over the rows
of that year with the full name of the FIRST row of the whole table (any
year) whose column value equals that maximum; the named branch need not
attain the maximum in the requested year. -/
theorem C2_amended (table : List DRow) (y : Int) (f : DRow → PFloat)
    (v : PFloat) (name : String)
    (h : library_records table y f = some (v, name)) :
    v = year_col_max table y f ∧
      ∃ r l1 l2, table = l1 ++ r :: l2 ∧
        r.base.libraryFullName = name ∧
        peqB (f r) (year_col_max table y f) = true ∧
        ∀ x ∈ l1, peqB (f x) (year_col_max table y f) = false := by
  unfold library_records record_holder_row at h
  cases hfind : table.find? (fun r => peqB (f r) (year_col_max table y f)) with
  | none =>
    rw [hfind] at h
    cases h
  | some r =>
    rw [hfind] at h
    obtain ⟨hv, hname⟩ : year_col_max table y f = v ∧ r.base.libraryFullName = name := by
      cases h
      exact ⟨rfl, rfl⟩
    obtain ⟨hpa, l1, l2, heq, hmiss⟩ := find?_first _ table r hfind
    exact ⟨hv.symm, r, l1, l2, heq, hname, hpa, hmiss⟩

/-- Witness for C2 (amended) at the fixture table: the 2017 record line
for cardholders names Alpha, and Alpha's matching row is the first
match in the full table. -/
theorem C2_amended_witness :
    PFloat.num 100 = year_col_max exTableC2 2017 colCardholders ∧
      ∃ r l1 l2, exTableC2 = l1 ++ r :: l2 ∧
        r.base.libraryFullName = "Alpha" ∧
        peqB (colCardholders r) (year_col_max exTableC2 2017 colCardholders) = true ∧
        ∀ x ∈ l1, peqB (colCardholders x) (year_col_max exTableC2 2017 colCardholders) = false :=
  C2_amended exTableC2 2017 colCardholders (PFloat.num 100) "Alpha" (by
    simp [library_records, record_holder_row, exTableC2, year_col_max, year_rows, seriesMax,
      rowAlpha2017, rowAlpha2019, rowBeta2017, rowBeta2019, add_columns_row, mkRow,
      colCardholders, pmaxNN, pleB, peqB, List.find?]
    norm_num)

/-- Fixture rows for C3: one (type `T`, region `R`) branch with
resources-per-cardholder 1 in 2017 and 5 in 2019. -/
def rowGamma2017 : DRow :=
  add_columns_row (mkRow "Gamma" "L0003" 2017 "T" "R" none (.num 1) (.num 0) (.num 1))

/-- Fixture row, see `rowGamma2017`. -/
def rowGamma2019 : DRow :=
  add_columns_row (mkRow "Gamma" "L0003" 2019 "T" "R" none (.num 5) (.num 0) (.num 1))

/-- Fixture table for C3. -/
def exTableC3 : List DRow := [rowGamma2017, rowGamma2019]

/-- Claim C3 counterexample: for year 2019 the claim requires the pivot
cell (T, R) to be the mean over 2019 rows only, i.e. 5; the code pivots
`self.__data`, the whole table, yielding the all-years mean 3. -/
theorem C3_counterexample :
    archive_pivot_cell exTableC3 2019 "T" "R" = PFloat.num 3 ∧
      pivot_cell (year_rows exTableC3 2019) "T" "R" = PFloat.num 5 ∧
      archive_pivot_cell exTableC3 2019 "T" "R" ≠
        pivot_cell (year_rows exTableC3 2019) "T" "R" := by
  have h1 : archive_pivot_cell exTableC3 2019 "T" "R" = PFloat.num 3 := by
    simp [archive_pivot_cell, pivot_cell, pmean, exTableC3, rowGamma2017, rowGamma2019,
      add_columns_row, mkRow, padd, pdiv, replaceNanZero, peqB]
    norm_num
  have h2 : pivot_cell (year_rows exTableC3 2019) "T" "R" = PFloat.num 5 := by
    simp [pivot_cell, pmean, year_rows, exTableC3, rowGamma2017, rowGamma2019,
      add_columns_row, mkRow, padd, pdiv, replaceNanZero, peqB]
  refine ⟨h1, h2, ?_⟩
  rw [h1, h2]
  intro h
  cases h

/-- Claim C3 (amended): the pivot cell is the mean resources-per-
cardholder of ALL rows of the (service type, service region) combination
across every year — it does not depend on the requested year; the
annotation step still renders a zero average as the `0.0*` marker and an
empty combination as the distinct `N/A**` marker. -/
theorem C3_amended (table : List DRow) (y y' : Int) (t reg : String) :
    archive_pivot_cell table y t reg = archive_pivot_cell table y' t reg ∧
      (table.filter (fun r => r.base.serviceType == t && r.base.serviceRegion == reg) = [] →
        display_pivot_cell (archive_pivot_cell table y t reg) = CellOut.naAnn) ∧
      (archive_pivot_cell table y t reg = PFloat.num 0 →
        display_pivot_cell (archive_pivot_cell table y t reg) = CellOut.zeroAnn) ∧
      CellOut.zeroAnn ≠ CellOut.naAnn := by
  refine ⟨rfl, ?_, ?_, by intro h; cases h⟩
  · intro hempty
    unfold archive_pivot_cell pivot_cell
    rw [hempty]
    simp [pmean, display_pivot_cell]
  · intro hzero
    rw [hzero]
    simp [display_pivot_cell]

/-- Witness for C3 (amended) at the fixture table: the (T, R) cell for
requested year 2019 equals the one for 2017, and the absent combination
(X, R) is rendered as the `N/A**` marker. -/
theorem C3_amended_witness :
    archive_pivot_cell exTableC3 2019 "T" "R" = archive_pivot_cell exTableC3 2017 "T" "R" ∧
      display_pivot_cell (archive_pivot_cell exTableC3 2019 "X" "R") = CellOut.naAnn :=
  ⟨(C3_amended exTableC3 2019 2017 "T" "R").1,
   (C3_amended exTableC3 2019 2017 "X" "R").2.1 (by
     simp [exTableC3, rowGamma2017, rowGamma2019, add_columns_row, mkRow])⟩

/-- If some row's full name equals the title-cased identifier, the
branch search takes the name branch and returns the name slice. -/
theorem lookup_name_hit (table : List DRow) (ident : String) (r : DRow)
    (hmem : r ∈ table) (heq : r.base.libraryFullName = pythonTitle ident) :
    branch_search_lookup table ident =
      some (table.filter (fun x => x.base.libraryFullName == pythonTitle ident)) := by
  unfold branch_search_lookup
  have hany : table.any (fun x => x.base.libraryFullName == pythonTitle ident) = true :=
    List.any_eq_true.mpr ⟨r, hmem, by simp [heq]⟩
  simp only [hany, if_true]

/-- If no row's full name but some row's number equals the title-cased
identifier, the branch search falls through to the number branch and
returns the number slice. -/
theorem lookup_number_hit (table : List DRow) (ident : String) (r : DRow)
    (hmem : r ∈ table) (heq : r.base.libraryNumber = pythonTitle ident)
    (hnoname : ∀ x ∈ table, x.base.libraryFullName ≠ pythonTitle ident) :
    branch_search_lookup table ident =
      some (table.filter (fun x => x.base.libraryNumber == pythonTitle ident)) := by
  unfold branch_search_lookup
  have hany1 : table.any (fun x => x.base.libraryFullName == pythonTitle ident) = false := by
    rw [List.any_eq_false]
    intro x hx
    simp only [beq_iff_eq]
    exact hnoname x hx
  have hany2 : table.any (fun x => x.base.libraryNumber == pythonTitle ident) = true :=
    List.any_eq_true.mpr ⟨r, hmem, by simp [heq]⟩
  simp only [hany1, hany2, if_true, Bool.false_eq_true, if_false]

/-- A nonempty list has a last element, and it is a member. -/
theorem getLast?_spec {α : Type} (l : List α) (h : l ≠ []) :
    ∃ a, l.getLast? = some a ∧ a ∈ l := by
  refine ⟨l.getLast h, List.getLast?_eq_getLast l h, List.getLast_mem h⟩

/-- Fixture table for C5: a branch stored under the upper-case name
`MCNAB LIBRARY`, which Python title-casing does not fix
(`.title()` of any casing of it gives `Mcnab Library`). -/
def exTableC5 : List DRow :=
  [add_columns_row (mkRow "MCNAB LIBRARY" "L0100" 2019 "Public" "South" none
    (.num 1) (.num 1) (.num 1))]

/-- Claim C5 counterexample: the identifier `MCNAB LIBRARY` equals the
stored full name of a branch (identically, hence up to case), yet the
branch search rejects it: the input is title-cased to `Mcnab Library`
before comparison, which matches neither index level. -/
theorem C5_counterexample :
    (exTableC5.any (fun r => r.base.libraryFullName == "MCNAB LIBRARY")) = true ∧
      pythonTitle "MCNAB LIBRARY" = "Mcnab Library" ∧
      branch_search_lookup exTableC5 "MCNAB LIBRARY" = none := by
  refine ⟨by decide, by decide, by decide⟩

/-- Claim C5 (amended): the branch search title-cases the identifier and
compares exactly, so case-insensitive matching holds precisely for
branches whose stored key is itself title-cased: for any branch row
whose full name (resp. number) is invariant under title-casing, every
identifier equal to it up to letter case is accepted and returns the
branch's year-row slice (for the number, provided no full name in the
table equals the title-cased identifier, since the name level is checked
first).  A branch whose stored key is not title-case-invariant (e.g.
`MCNAB LIBRARY`) is not found even by its exact spelling. -/
theorem C5_amended (table : List DRow) (r : DRow) (ident : String)
    (hmem : r ∈ table) :
    (pythonLower ident = pythonLower r.base.libraryFullName →
      pythonTitle r.base.libraryFullName = r.base.libraryFullName →
      branch_search_lookup table ident =
        some (table.filter (fun x => x.base.libraryFullName == r.base.libraryFullName)) ∧
      r ∈ table.filter (fun x => x.base.libraryFullName == r.base.libraryFullName)) ∧
    (pythonLower ident = pythonLower r.base.libraryNumber →
      pythonTitle r.base.libraryNumber = r.base.libraryNumber →
      (∀ x ∈ table, x.base.libraryFullName ≠ r.base.libraryNumber) →
      branch_search_lookup table ident =
        some (table.filter (fun x => x.base.libraryNumber == r.base.libraryNumber)) ∧
      r ∈ table.filter (fun x => x.base.libraryNumber == r.base.libraryNumber)) := by
  constructor
  · intro hcase htitle
    have htid : pythonTitle ident = r.base.libraryFullName :=
      (pythonTitle_congr hcase).trans htitle
    constructor
    · rw [lookup_name_hit table ident r hmem htid.symm, htid]
    · exact List.mem_filter.mpr ⟨hmem, by simp⟩
  · intro hcase htitle hnoname
    have htid : pythonTitle ident = r.base.libraryNumber :=
      (pythonTitle_congr hcase).trans htitle
    constructor
    · rw [lookup_number_hit table ident r hmem htid.symm (by rw [htid]; exact hnoname), htid]
    · exact List.mem_filter.mpr ⟨hmem, by simp⟩

/-- Witness for C5 (amended): the branch stored as `Toronto Public` is
found by the differently-cased identifier `tORONTO pUBLIC`. -/
theorem C5_amended_witness :
    branch_search_lookup
        [add_columns_row (mkRow "Toronto Public" "L0353" 2019 "Public" "South" none
          (.num 1) (.num 1) (.num 1))]
        "tORONTO pUBLIC" =
      some [add_columns_row (mkRow "Toronto Public" "L0353" 2019 "Public" "South" none
        (.num 1) (.num 1) (.num 1))] := by
  have h := (C5_amended
    [add_columns_row (mkRow "Toronto Public" "L0353" 2019 "Public" "South" none
      (.num 1) (.num 1) (.num 1))]
    (add_columns_row (mkRow "Toronto Public" "L0353" 2019 "Public" "South" none
      (.num 1) (.num 1) (.num 1)))
    "tORONTO pUBLIC" (by simp)).1 (by decide) (by decide)
  rw [h.1]
  rfl

/-- Fixture table for C9: a branch stored under the upper-case name
`OTTAWA CENTRAL`, with rows for 2017 and 2019. -/
def exTableC9 : List DRow :=
  [add_columns_row (mkRow "OTTAWA CENTRAL" "L0200" 2017 "Public" "East" none
      (.num 2) (.num 1) (.num 10)),
   add_columns_row (mkRow "OTTAWA CENTRAL" "L0200" 2019 "Public" "East" none
      (.num 3) (.num 1) (.num 12))]

/-- Claim C9 counterexample: the round-trip fails outright for a branch
whose stored full name is not title-case-invariant: searching the
branch's own full name `OTTAWA CENTRAL` (its exact stored spelling)
returns no history at all, because the input is title-cased to
`Ottawa Central` before comparison. -/
theorem C9_counterexample :
    (exTableC9.any (fun r => r.base.libraryFullName == "OTTAWA CENTRAL")) = true ∧
      branch_search_lookup exTableC9 "OTTAWA CENTRAL" = none := by
  refine ⟨by decide, by decide⟩

/-- Claim C9 (amended): for every branch of the merged table whose
stored full name (resp. number) is invariant under title-casing,
searching that identifier returns a history whose latest record (last
entry) carries the branch's own full name and number — the number
matching additionally requires key uniqueness (one number per name), and
the number search requires that no full name in the table collides with
the number, as the name level is consulted first. -/
theorem C9_amended (table : List DRow) (r : DRow) (hmem : r ∈ table) :
    (pythonTitle r.base.libraryFullName = r.base.libraryFullName →
      (∀ x ∈ table, x.base.libraryFullName = r.base.libraryFullName →
        x.base.libraryNumber = r.base.libraryNumber) →
      ∃ hist last, branch_search_lookup table r.base.libraryFullName = some hist ∧
        latestRecord hist = some last ∧
        last.base.libraryFullName = r.base.libraryFullName ∧
        last.base.libraryNumber = r.base.libraryNumber) ∧
    (pythonTitle r.base.libraryNumber = r.base.libraryNumber →
      (∀ x ∈ table, x.base.libraryNumber = r.base.libraryNumber →
        x.base.libraryFullName = r.base.libraryFullName) →
      (∀ x ∈ table, x.base.libraryFullName ≠ r.base.libraryNumber) →
      ∃ hist last, branch_search_lookup table r.base.libraryNumber = some hist ∧
        latestRecord hist = some last ∧
        last.base.libraryFullName = r.base.libraryFullName ∧
        last.base.libraryNumber = r.base.libraryNumber) := by
  constructor
  · intro htitle huniq
    have hlk := lookup_name_hit table r.base.libraryFullName r hmem htitle.symm
    rw [htitle] at hlk
    set hist := table.filter (fun x => x.base.libraryFullName == r.base.libraryFullName) with hh
    have hne : hist ≠ [] := by
      intro hnil
      have : r ∈ hist := List.mem_filter.mpr ⟨hmem, by simp⟩
      rw [hnil] at this
      cases this
    obtain ⟨last, hlast, hlastmem⟩ := getLast?_spec hist hne
    have hmemf := List.mem_filter.mp hlastmem
    have hname : last.base.libraryFullName = r.base.libraryFullName := by
      have := hmemf.2
      simpa using this
    exact ⟨hist, last, hlk, hlast, hname, huniq last hmemf.1 hname⟩
  · intro htitle huniq hnoname
    have hlk := lookup_number_hit table r.base.libraryNumber r hmem htitle.symm
      (by rw [htitle]; exact hnoname)
    rw [htitle] at hlk
    set hist := table.filter (fun x => x.base.libraryNumber == r.base.libraryNumber) with hh
    have hne : hist ≠ [] := by
      intro hnil
      have : r ∈ hist := List.mem_filter.mpr ⟨hmem, by simp⟩
      rw [hnil] at this
      cases this
    obtain ⟨last, hlast, hlastmem⟩ := getLast?_spec hist hne
    have hmemf := List.mem_filter.mp hlastmem
    have hnum : last.base.libraryNumber = r.base.libraryNumber := by
      have := hmemf.2
      simpa using this
    exact ⟨hist, last, hlk, hlast, huniq last hmemf.1 hnum, hnum⟩

/-- Witness for C9 (amended): a title-cased branch round-trips — the
history found by its own name ends in a record with its key. -/
theorem C9_amended_witness :
    ∃ hist last, branch_search_lookup
        [add_columns_row (mkRow "Kanata Branch" "L0500" 2019 "Public" "East" none
          (.num 1) (.num 1) (.num 1))]
        "Kanata Branch" = some hist ∧
      latestRecord hist = some last ∧
      last.base.libraryFullName = "Kanata Branch" ∧
      last.base.libraryNumber = "L0500" :=
  (C9_amended
    [add_columns_row (mkRow "Kanata Branch" "L0500" 2019 "Public" "East" none
      (.num 1) (.num 1) (.num 1))]
    (add_columns_row (mkRow "Kanata Branch" "L0500" 2019 "Public" "East" none
      (.num 1) (.num 1) (.num 1)))
    (by simp)).1 (by decide) (by
      intro x hx hn
      simp at hx
      rw [hx])

/-- A successful anchored literal match pins down the first characters
of the string: its take equals the pattern. -/
theorem regexLitMatch_take : ∀ (pat s : List Char), regexLitMatch pat s = true →
    s.take pat.length = pat
  | [], s, _ => by simp
  | p :: ps, [], h => by cases h
  | p :: ps, c :: cs, h => by
    simp only [regexLitMatch, Bool.and_eq_true, beq_iff_eq] at h
    simp [h.1, regexLitMatch_take ps cs h.2]

/-- A valid postal code has exactly six characters. -/
theorem validPostal_length {s : String} (h : validPostal s = true) : s.data.length = 6 := by
  unfold validPostal at h
  have h1 := ((Bool.and_eq_true _ _).mp h).1
  have h2 : s.length = 6 := by
    simpa using h1
  exact h2

/-- Fixture row for C6/C7 witnesses: a 2019 branch with postal code
`K1A0B1`. -/
def exRowC6 : DRow :=
  add_columns_row (mkRow "Ottawa Main" "L0400" 2019 "Public" "East" (some "K1A0B1")
    (.num 4) (.num 2) (.num 2))

/-- Fixture row for the C6 counterexample: a 2019 branch whose postal
code is missing (the spec's data model makes the postal code
nullable). -/
def exRowC6nan : DRow :=
  add_columns_row (mkRow "No Postal Branch" "L0600" 2019 "Public" "East" none
    (.num 1) (.num 1) (.num 1))

/-- Claim C6 counterexample: on a table whose only 2019 row has a
missing postal code, the valid postal input `k1a1a1` matches no row,
yet the locator does not return an empty sequence: `str.match` fills
the missing cell with NaN and boolean-masking with a NaN-holding mask
raises an uncaught ValueError (modelled as `none`), so the result is an
error, not `some []`. -/
theorem C6_counterexample :
    validPostal "k1a1a1" = true ∧
      exRowC6nan.base.postalCode = none ∧
      library_locator [exRowC6nan] "k1a1a1" = none ∧
      (none : Option (List DRow)) ≠ some [] := by
  refine ⟨by decide, rfl, ?_, by intro h; cases h⟩
  unfold library_locator
  rw [if_pos (by decide)]
  rfl

/-- Claim C6 (amended): every record returned by the locator belongs to
the snapshot year 2019 and carries a postal code whose first three
characters equal the upper-cased first three characters of the typed
postal code; provided every 2019 row has a present postal code, the
locator completes, and a prefix matching no row yields an empty
sequence, not an error; but when some 2019 row's postal code is
missing, the mask holds NaN and the locator raises an uncaught
ValueError instead of returning a sequence. -/
theorem C6_amended (table : List DRow) (postal : String) :
    (∀ rows, library_locator table postal = some rows →
      ∀ r ∈ rows, r.base.year = 2019 ∧
        ∃ pc, r.base.postalCode = some pc ∧
          pc.data.take 3 = (pythonUpper postal).data.take 3) ∧
      (validPostal postal = true →
        (∀ r ∈ table, r.base.year = 2019 → r.base.postalCode ≠ none) →
        ∃ rows, library_locator table postal = some rows ∧
          ((∀ r ∈ table, r.base.year = 2019 →
              (locator_mask_cell ((pythonUpper postal).take 3) r).getD false = false) →
            rows = [])) ∧
      (validPostal postal = true →
        (∃ r ∈ table, r.base.year = 2019 ∧ r.base.postalCode = none) →
        library_locator table postal = none) := by
  refine ⟨?_, ?_, ?_⟩
  · intro rows h r hr
    unfold library_locator at h
    by_cases hv : validPostal postal = true
    · rw [if_pos hv] at h
      simp only [locator_filter] at h
      by_cases hall : ((table.filter (fun r => r.base.year == 2019)).all
          (fun r => (locator_mask_cell ((pythonUpper postal).take 3) r).isSome)) = true
      · rw [if_pos hall] at h
        obtain rfl : (table.filter (fun r => r.base.year == 2019)).filter
            (fun r => (locator_mask_cell ((pythonUpper postal).take 3) r).getD false) =
              rows := by
          cases h
          rfl
        obtain ⟨hmem19, hmask⟩ := List.mem_filter.mp hr
        obtain ⟨hmemT, hyearB⟩ := List.mem_filter.mp hmem19
        have hyear : r.base.year = 2019 := by
          simpa using hyearB
        refine ⟨hyear, ?_⟩
        cases hpc : r.base.postalCode with
        | none =>
          unfold locator_mask_cell at hmask
          rw [hpc] at hmask
          cases hmask
        | some pc =>
          unfold locator_mask_cell at hmask
          rw [hpc] at hmask
          have hmatch : regexLitMatch ((pythonUpper postal).take 3).data pc.data = true := by
            simpa using hmask
          have htake := regexLitMatch_take _ _ hmatch
          have hdata : ((pythonUpper postal).take 3).data = (pythonUpper postal).data.take 3 :=
            String.data_take _ _
          have hlen6 : (pythonUpper postal).data.length = 6 := by
            unfold pythonUpper
            simpa using validPostal_length hv
          have hlen : ((pythonUpper postal).take 3).data.length = 3 := by
            rw [hdata, List.length_take, hlen6]
            omega
          rw [hlen, hdata] at htake
          exact ⟨pc, rfl, htake⟩
      · rw [if_neg hall] at h
        cases h
    · rw [if_neg hv] at h
      cases h
  · intro hv hpresent
    have hall : ((table.filter (fun r => r.base.year == 2019)).all
        (fun r => (locator_mask_cell ((pythonUpper postal).take 3) r).isSome)) = true := by
      rw [List.all_eq_true]
      intro r hr
      obtain ⟨hmemT, hyearB⟩ := List.mem_filter.mp hr
      have hyear : r.base.year = 2019 := by
        simpa using hyearB
      have hne := hpresent r hmemT hyear
      unfold locator_mask_cell
      cases hpc : r.base.postalCode with
      | none => exact absurd hpc hne
      | some pc => rfl
    refine ⟨(table.filter (fun r => r.base.year == 2019)).filter
        (fun r => (locator_mask_cell ((pythonUpper postal).take 3) r).getD false), ?_, ?_⟩
    · unfold library_locator
      rw [if_pos hv]
      simp only [locator_filter]
      rw [if_pos hall]
    · intro hnomatch
      rw [List.filter_eq_nil_iff]
      intro r hr
      obtain ⟨hmemT, hyearB⟩ := List.mem_filter.mp hr
      have hyear : r.base.year = 2019 := by
        simpa using hyearB
      have hnm := hnomatch r hmemT hyear
      simp [hnm]
  · rintro hv ⟨r, hmemT, hyear, hpc⟩
    unfold library_locator
    rw [if_pos hv]
    simp only [locator_filter]
    have hall : ((table.filter (fun r => r.base.year == 2019)).all
        (fun r => (locator_mask_cell ((pythonUpper postal).take 3) r).isSome)) = false := by
      rw [List.all_eq_false]
      refine ⟨r, List.mem_filter.mpr ⟨hmemT, by simp [hyear]⟩, ?_⟩
      unfold locator_mask_cell
      rw [hpc]
      simp
    rw [hall]
    simp

/-- Witness for C6 (amended): on the one-row table with postal code
`K1A0B1` every returned record is a 2019 row with prefix `K1A`, and on
the one-row table with a missing postal code the locator errors. -/
theorem C6_amended_witness :
    (∀ r ∈ [exRowC6], r.base.year = 2019 ∧
      ∃ pc, r.base.postalCode = some pc ∧
        pc.data.take 3 = (pythonUpper "k1a1a1").data.take 3) ∧
      library_locator [exRowC6nan] "k1a1a1" = none :=
  ⟨(C6_amended [exRowC6] "k1a1a1").1 [exRowC6] (by
      unfold library_locator
      rw [if_pos (by decide)]
      rfl),
   (C6_amended [exRowC6nan] "k1a1a1").2.2 (by decide)
     ⟨exRowC6nan, by simp, rfl, rfl⟩⟩

/-- `pleB` is total. -/
theorem pleB_total (a b : PFloat) : pleB a b = true ∨ pleB b a = true := by
  cases a <;> cases b <;> simp [pleB] <;> exact le_total _ _

/-- `pleB` is transitive. -/
theorem pleB_trans {a b c : PFloat} (h1 : pleB a b = true) (h2 : pleB b c = true) :
    pleB a c = true := by
  cases a <;> cases b <;> cases c <;> simp_all [pleB]
  exact le_trans h1 h2

/-- The descending comparator is total. -/
theorem sortLeDesc_total (a b : PFloat) : sortLeDesc a b = true ∨ sortLeDesc b a = true := by
  unfold sortLeDesc
  by_cases hb : b = PFloat.nan
  · left
    rw [if_pos hb]
  · by_cases ha : a = PFloat.nan
    · right
      rw [if_pos ha]
    · rw [if_neg hb, if_neg ha, if_neg ha, if_neg hb]
      exact (pleB_total b a).elim Or.inl Or.inr

/-- The descending comparator is transitive. -/
theorem sortLeDesc_trans {a b c : PFloat} (h1 : sortLeDesc a b = true)
    (h2 : sortLeDesc b c = true) : sortLeDesc a c = true := by
  unfold sortLeDesc at *
  by_cases hc : c = PFloat.nan
  · rw [if_pos hc]
  · rw [if_neg hc] at h2 ⊢
    by_cases hb : b = PFloat.nan
    · rw [if_pos hb] at h2
      cases h2
    · rw [if_neg hb] at h1 h2
      by_cases ha : a = PFloat.nan
      · rw [if_pos ha] at h1
        cases h1
      · rw [if_neg ha] at h1 ⊢
        exact pleB_trans h2 h1

/-- The ascending comparator is total. -/
theorem sortLeAsc_total (a b : PFloat) : sortLeAsc a b = true ∨ sortLeAsc b a = true := by
  unfold sortLeAsc
  by_cases hb : b = PFloat.nan
  · left
    rw [if_pos hb]
  · by_cases ha : a = PFloat.nan
    · right
      rw [if_pos ha]
    · rw [if_neg hb, if_neg ha, if_neg ha, if_neg hb]
      exact pleB_total a b

/-- The ascending comparator is transitive. -/
theorem sortLeAsc_trans {a b c : PFloat} (h1 : sortLeAsc a b = true)
    (h2 : sortLeAsc b c = true) : sortLeAsc a c = true := by
  unfold sortLeAsc at *
  by_cases hc : c = PFloat.nan
  · rw [if_pos hc]
  · rw [if_neg hc] at h2 ⊢
    by_cases hb : b = PFloat.nan
    · rw [if_pos hb] at h2
      cases h2
    · rw [if_neg hb] at h1 h2
      by_cases ha : a = PFloat.nan
      · rw [if_pos ha] at h1
        cases h1
      · rw [if_neg ha] at h1 ⊢
        exact pleB_trans h1 h2

instance : IsTotal DRow borrowRel :=
  ⟨fun a b => by
    unfold borrowRel
    exact sortLeDesc_total _ _⟩

instance : IsTrans DRow borrowRel :=
  ⟨fun a b c h1 h2 => by
    unfold borrowRel at h1 h2 ⊢
    exact sortLeDesc_trans h1 h2⟩

instance : IsTotal DRow studyRel :=
  ⟨fun a b => by
    unfold studyRel
    exact sortLeAsc_total _ _⟩

instance : IsTrans DRow studyRel :=
  ⟨fun a b c h1 h2 => by
    unfold studyRel at h1 h2 ⊢
    exact sortLeAsc_trans h1 h2⟩

/-- After `add_columns`, the derived resources-per-cardholder is never
NaN: the division's NaN outcomes are all replaced by 0. -/
theorem add_columns_rpc_ne_nan (r : Row) :
    (add_columns_row r).resourcesPerCardholder ≠ PFloat.nan := by
  show replaceNanZero (pdiv (padd r.totalPrintTitles r.totalEbookTitles) r.cardholders) ≠
    PFloat.nan
  unfold replaceNanZero
  by_cases h : pdiv (padd r.totalPrintTitles r.totalEbookTitles) r.cardholders = PFloat.nan
  · rw [if_pos h]
    intro hc
    cases hc
  · rw [if_neg h]
    exact h

/-- Every row of a locator result over an `add_columns` table has a
non-NaN resources-per-cardholder. -/
theorem locator_rows_rpc_ne_nan (raw : List Row) (postal : String) (rows : List DRow)
    (h : library_locator (add_columns raw) postal = some rows) :
    ∀ r ∈ rows, r.resourcesPerCardholder ≠ PFloat.nan := by
  intro r hr
  unfold library_locator at h
  by_cases hv : validPostal postal = true
  · rw [if_pos hv] at h
    simp only [locator_filter] at h
    by_cases hall : (((add_columns raw).filter (fun r => r.base.year == 2019)).all
        (fun r => (locator_mask_cell ((pythonUpper postal).take 3) r).isSome)) = true
    · rw [if_pos hall] at h
      obtain rfl : ((add_columns raw).filter (fun r => r.base.year == 2019)).filter
          (fun r => (locator_mask_cell ((pythonUpper postal).take 3) r).getD false) =
            rows := by
        cases h
        rfl
      have hmem19 := (List.mem_filter.mp hr).1
      have hmem := (List.mem_filter.mp hmem19).1
      unfold add_columns at hmem
      obtain ⟨r0, _, rfl⟩ := List.mem_map.mp hmem
      exact add_columns_rpc_ne_nan r0
    · rw [if_neg hall] at h
      cases h
  · rw [if_neg hv] at h
    cases h

/-- Claim C7: on any locator result (over the table built by
`add_columns`), preference 1 yields adjacent pairs in descending
resources-per-cardholder order, and preference 2 yields adjacent pairs
in ascending cardholder order (whenever both counts are present; ties
unconstrained). -/
theorem C7_confirmed (raw : List Row) (postal : String) (rows : List DRow)
    (h : library_locator (add_columns raw) postal = some rows) :
    List.Chain' (fun a b =>
        pleB b.resourcesPerCardholder a.resourcesPerCardholder = true)
      (sort_by_borrow rows) ∧
      List.Chain' (fun a b => ∀ x y : ℚ, a.base.cardholders = PFloat.num x →
        b.base.cardholders = PFloat.num y → x ≤ y) (sort_by_study rows) := by
  constructor
  · have hs : List.Pairwise borrowRel (sort_by_borrow rows) :=
      List.sorted_insertionSort borrowRel rows
    have hnn := locator_rows_rpc_ne_nan raw postal rows h
    refine List.Pairwise.chain' (hs.imp_of_mem ?_)
    intro a b ha hb hr
    have hna : a.resourcesPerCardholder ≠ PFloat.nan :=
      hnn a ((List.mem_insertionSort borrowRel).mp ha)
    have hnb : b.resourcesPerCardholder ≠ PFloat.nan :=
      hnn b ((List.mem_insertionSort borrowRel).mp hb)
    unfold borrowRel sortLeDesc at hr
    rw [if_neg hnb, if_neg hna] at hr
    exact hr
  · have hs : List.Pairwise studyRel (sort_by_study rows) :=
      List.sorted_insertionSort studyRel rows
    refine List.Pairwise.chain' (hs.imp ?_)
    intro a b hr x y hx hy
    unfold studyRel sortLeAsc at hr
    rw [hx, hy] at hr
    have hyn : (PFloat.num y : PFloat) ≠ PFloat.nan := by
      intro hc
      cases hc
    have hxn : (PFloat.num x : PFloat) ≠ PFloat.nan := by
      intro hc
      cases hc
    rw [if_neg hyn, if_neg hxn] at hr
    simpa [pleB] using hr

/-- Fixture raw rows for the C7 witness: two 2019 branches with `K1A`
postal codes; the locator returns both. -/
def exRawC7 : List Row :=
  [mkRow "Ottawa Main" "L0400" 2019 "Public" "East" (some "K1A0B1")
      (.num 4) (.num 2) (.num 2),
    mkRow "Ottawa East" "L0401" 2019 "Public" "East" (some "K1A0C1")
      (.num 9) (.num 1) (.num 1)]

/-- Witness for C7 at a concrete locator result of two rows. -/
theorem C7_confirmed_witness :
    List.Chain' (fun a b =>
        pleB b.resourcesPerCardholder a.resourcesPerCardholder = true)
      (sort_by_borrow (add_columns exRawC7)) ∧
      List.Chain' (fun a b => ∀ x y : ℚ, a.base.cardholders = PFloat.num x →
        b.base.cardholders = PFloat.num y → x ≤ y)
        (sort_by_study (add_columns exRawC7)) :=
  C7_confirmed exRawC7 "k1a1a1" (add_columns exRawC7) (by
    unfold library_locator
    rw [if_pos (by decide)]
    rfl)

/-- The spec's wording of the postal format, as a direct shape test:
exactly six characters, one letter followed by one digit repeated three
times (case-insensitive through the letter class). -/
def postalShapeB (s : String) : Bool :=
  match s.data with
  | [c1, c2, c3, c4, c5, c6] =>
    isLetterAZ c1 && isDigit09 c2 && isLetterAZ c3 && isDigit09 c4 &&
      isLetterAZ c5 && isDigit09 c6
  | _ => false

/-- Claim C8: the validation accepts exactly the strings of the
letter-digit alternating 6-character shape; rejected inputs re-prompt
(never fail), accepted input is normalized to upper case; concretely
`1K1A1A` is rejected, `k1a1a1` is accepted and becomes `K1A1A1` with
prefix `K1A`. -/
theorem C8_confirmed :
    (∀ s, validPostal s = postalShapeB s) ∧
      (∀ s rest, validPostal s = false → promptPostal (s :: rest) = promptPostal rest) ∧
      (∀ s rest, validPostal s = true → promptPostal (s :: rest) = some (pythonUpper s)) ∧
      promptPostal ["1K1A1A", "k1a1a1"] = some "K1A1A1" ∧
      ("K1A1A1".take 3 = "K1A") := by
  refine ⟨?_, ?_, ?_, ?_, ?_⟩
  · intro s
    obtain ⟨l⟩ := s
    show (decide (l.length = 6) && matchLD 3 l) = postalShapeB ⟨l⟩
    rcases l with _ | ⟨c1, _ | ⟨c2, _ | ⟨c3, _ | ⟨c4, _ | ⟨c5, _ | ⟨c6, _ | ⟨c7, rest⟩⟩⟩⟩⟩⟩⟩ <;>
      simp [matchLD, postalShapeB, Bool.and_assoc]
  · intro s rest hs
    simp only [promptPostal, hs]
    simp
  · intro s rest hs
    simp only [promptPostal, hs]
    simp
  · decide
  · decide

/-- Witness for C8: the invalid line `1K1A1A` is re-prompted and the
valid line `k1a1a1` is accepted upper-cased. -/
theorem C8_confirmed_witness :
    promptPostal ["1K1A1A", "k1a1a1"] = promptPostal ["k1a1a1"] ∧
      promptPostal ["k1a1a1"] = some (pythonUpper "k1a1a1") ∧
      validPostal "k1a1a1" = postalShapeB "k1a1a1" :=
  ⟨C8_confirmed.2.1 "1K1A1A" ["k1a1a1"] (by decide),
   C8_confirmed.2.2.1 "k1a1a1" [] (by decide),
   C8_confirmed.1 "k1a1a1"⟩
